import Mathlib

/-!
Verification of the gogb emulator core: a shallow embedding of the memory
unit (pkg/gogb/memory/memory.go), the Z80 flag register and instruction
primitives (pkg/gogb/cpu), and the cartridge header parser (pkg/gogb/rom.go).

Machine integers are modelled as Nat with explicit reductions modulo 2^8 or
2^16 exactly where the Go code converts or wraps.  Memory addresses are
modelled as Int, because the Go code takes them as the signed type int.
A Go function that returns a value together with an error is modelled as a
PResult; the extra "panicked" case models a Go runtime panic, which in Go
aborts instead of returning (a slice indexed with a negative index panics).
-/

namespace gogb

/-- Error sentinels of the repository, one constructor per Go error value. -/
inductive GoErr where
  | addressOutOfRange
  | stackOverflow
  | stackUnderflow
deriving DecidableEq

/-- Result of a Go call: a normal return carrying the returned values, an
error return carrying the error together with the returned values and the
state left behind, or a runtime panic. -/
inductive PResult (σ : Type) where
  | ok (s : σ)
  | err (e : GoErr) (s : σ)
  | panicked
deriving DecidableEq

/-- Backing store of the RAM type: a byte array, one Nat (below 256) per
byte. -/
abbrev RAM := List Nat

/-- GetByte from memory.go: fails when addr is at or beyond the length;
reading a negative index is a Go runtime panic (the code only checks the
upper bound). -/
def RAM.GetByte (r : RAM) (addr : Int) : PResult Nat :=
  if (r.length : Int) ≤ addr then .err .addressOutOfRange 0
  else if addr < 0 then .panicked
  else .ok (r.getD addr.toNat 0)

/-- GetWord from memory.go: big-endian, high byte first; fails when addr+1
is at or beyond the length; a negative index is a runtime panic. -/
def RAM.GetWord (r : RAM) (addr : Int) : PResult Nat :=
  if (r.length : Int) ≤ addr + 1 then .err .addressOutOfRange 0
  else if addr < 0 then .panicked
  else .ok (r.getD addr.toNat 0 <<< 8 ||| r.getD (addr.toNat + 1) 0)

/-- SetByte from memory.go. -/
def RAM.SetByte (r : RAM) (addr : Int) (val : Nat) : PResult RAM :=
  if (r.length : Int) ≤ addr then .err .addressOutOfRange r
  else if addr < 0 then .panicked
  else .ok (r.set addr.toNat val)

/-- SetWord from memory.go: stores the high byte at addr and the low byte at
addr+1. -/
def RAM.SetWord (r : RAM) (addr : Int) (val : Nat) : PResult RAM :=
  if (r.length : Int) ≤ addr + 1 then .err .addressOutOfRange r
  else if addr < 0 then .panicked
  else .ok ((r.set addr.toNat ((val &&& 0xFF00) >>> 8)).set (addr.toNat + 1) (val &&& 0x00FF))

/-! Flag register (pkg/gogb/cpu/z80.go).  A Z80Flags value is a uint8. -/

/-- FlagEmpty from z80.go. -/
def FlagEmpty : Nat := 0

/-- FlagCarry from z80.go. -/
def FlagCarry : Nat := 1 <<< 4

/-- FlagHalfCarry from z80.go. -/
def FlagHalfCarry : Nat := 1 <<< 5

/-- FlagAddSub from z80.go. -/
def FlagAddSub : Nat := 1 <<< 6

/-- FlagZero from z80.go. -/
def FlagZero : Nat := 1 <<< 7

/-- Set from z80.go: bitwise or with the flag. -/
def Z80Flags.Set (f flag : Nat) : Nat := f ||| flag

/-- Clear from z80.go: bitwise and with the uint8 complement of the flag. -/
def Z80Flags.Clear (f flag : Nat) : Nat := f &&& (255 ^^^ flag)

/-- SetIf from z80.go: set the flag when the condition holds, clear it
otherwise. -/
def Z80Flags.SetIf (f : Nat) (condition : Bool) (flag : Nat) : Nat :=
  if condition then Z80Flags.Set f flag else Z80Flags.Clear f flag

/-- IsSet from z80.go. -/
def Z80Flags.IsSet (f flag : Nat) : Bool := f &&& flag != 0

/-- IsClear from z80.go. -/
def Z80Flags.IsClear (f flag : Nat) : Bool := f &&& flag == 0

/-! Instruction primitives (pkg/gogb/cpu/instructions.go).  The Go functions
mutate through pointers; here each returns the final values of everything it
can write: push yields (sp, memory), pop and call yield a triple. -/

/-- The push primitive: refuses with StackOverflow when sp is at most 2,
otherwise decrements sp by 2 and writes the word there, returning the
memory write's error verbatim when it fails (sp stays decremented). -/
def push (val sp : Nat) (mem : RAM) : PResult (Nat × RAM) :=
  if sp ≤ 2 then .err .stackOverflow (sp, mem)
  else
    match RAM.SetWord mem ((sp - 2 : Nat) : Int) val with
    | .ok mem2 => .ok (sp - 2, mem2)
    | .err e _ => .err e (sp - 2, mem)
    | .panicked => .panicked

/-- The pop primitive: reads the word at sp, turning an AddressOutOfRange
read into StackUnderflow with a zero value and unchanged sp; otherwise
advances sp by 2 (uint16 wraparound) and returns the word. -/
def pop (sp : Nat) (mem : RAM) : PResult (Nat × Nat × RAM) :=
  match RAM.GetWord mem (sp : Int) with
  | .err .addressOutOfRange _ => .err .stackUnderflow (0, sp, mem)
  | .ok res => .ok (res, (sp + 2) % 65536, mem)
  | .err e v => .err e (v, (sp + 2) % 65536, mem)
  | .panicked => .panicked

/-- The add8 primitive: returns the new value of the left register and the
new flags.  The carry-in increments right as a uint8, wrapping modulo 256. -/
def add8 (left right f : Nat) (withCarry : Bool) : Nat × Nat :=
  let right := if withCarry && Z80Flags.IsSet f FlagCarry then (right + 1) % 256 else right
  let result := left + right
  let f := Z80Flags.SetIf f (decide (0xFF < result)) FlagCarry
  let result := result &&& 0xFF
  let f := Z80Flags.Clear f FlagAddSub
  let f := Z80Flags.SetIf f (result == 0) FlagZero
  let f := Z80Flags.SetIf f (decide (0x0F < (right &&& 0x0F) + (left &&& 0x0F))) FlagHalfCarry
  ((result &&& 0xFF) % 256, f)

/-- The add16 primitive: returns the new value of the left register and the
new flags.  It never touches the Zero flag. -/
def add16 (left right f : Nat) : Nat × Nat :=
  let result := left + right
  let f := Z80Flags.SetIf f (decide (0xFFFF < result)) FlagCarry
  let result := result &&& 0xFFFF
  let f := Z80Flags.Clear f FlagAddSub
  let f := Z80Flags.SetIf f (decide (0xFFF < (right &&& 0xFFF) + (left &&& 0xFFF))) FlagHalfCarry
  ((result &&& 0xFFFF) % 65536, f)

/-- The and primitive: returns the new value of the left register and the
new flags. -/
def and (left right f : Nat) : Nat × Nat :=
  let left := left &&& right
  let f := Z80Flags.SetIf f (left == 0) FlagZero
  let f := Z80Flags.Clear f FlagAddSub
  let f := Z80Flags.Set f FlagHalfCarry
  let f := Z80Flags.Clear f FlagCarry
  (left, f)

/-- The bit primitive: returns the new flags.  The shift 1 <<< b happens at
uint8 width in Go, hence the reduction modulo 256. -/
def bit (b val f : Nat) : Nat :=
  Z80Flags.SetIf f (val &&& ((1 <<< b) % 256) == 0) FlagZero

/-- The call primitive: pushes pc, then on success replaces pc by the
address; a push failure is propagated verbatim with pc unchanged.  Returns
(pc, sp, memory). -/
def call (addr pc sp : Nat) (mem : RAM) : PResult (Nat × Nat × RAM) :=
  match push pc sp mem with
  | .ok (sp2, mem2) => .ok (addr, sp2, mem2)
  | .err e (sp2, mem2) => .err e (pc, sp2, mem2)
  | .panicked => .panicked

/-! Cartridge header parser (pkg/gogb/rom.go).  Go strings of bytes are
modelled as lists of byte values. -/

/-- Errors of the header parser, one constructor per Go error value. -/
inductive RomErr where
  | headerLengthInvalid
  | headerChecksumInvalid
deriving DecidableEq

/-- CgbSupport from rom.go. -/
inductive CgbSupport where
  | CgbNotSupported
  | CgbSupported
  | CgbRequired
deriving DecidableEq

/-- CartridgeHeader from rom.go.  The Go field named Type is called CartType
here because Type is reserved in Lean; it holds the raw CartridgeType code. -/
structure CartridgeHeader where
  Title : List Nat
  ManufacturerCode : List Nat
  CGBSupport : CgbSupport
  NewLicenseeCode : List Nat
  SGBSupport : Bool
  CartType : Nat
  ROMSize : Int
  RAMSize : Int
  Japanese : Bool
  OldLicenseeCode : Nat
  VersionNumber : Nat
  GlobalChecksum : Nat
deriving DecidableEq

/-- getROMSize from rom.go. -/
def getROMSize (size : Nat) : Int :=
  if size = 0x00 then 2 * 16
  else if size = 0x01 then 4 * 16
  else if size = 0x02 then 8 * 16
  else if size = 0x03 then 16 * 16
  else if size = 0x04 then 32 * 16
  else if size = 0x05 then 128 * 16
  else if size = 0x06 then 256 * 16
  else if size = 0x08 then 512 * 16
  else if size = 0x52 then 72 * 16
  else if size = 0x53 then 80 * 16
  else if size = 0x54 then 96 * 16
  else 0

/-- getRAMSize from rom.go. -/
def getRAMSize (size : Nat) : Int :=
  if size = 0x01 then 2
  else if size = 0x02 then 8
  else if size = 0x03 then 32
  else if size = 0x04 then 128
  else if size = 0x05 then 64
  else 0

/-- Removal of trailing zero bytes, the effect of the Go call
strings.TrimRight(s, the NUL byte). -/
def trimRightNul (l : List Nat) : List Nat :=
  (l.reverse.dropWhile (fun b => b == 0)).reverse

/-- The header checksum loop of ParseHeader: a uint8 accumulator updated as
accumulator - byte - 1 over bytes 0x34 through 0x4C inclusive.  The uint8
subtraction is modelled as addition of the modular complement. -/
def headerChecksumCalc (inp : List Nat) : Nat :=
  (List.range' 0x34 25).foldl (fun acc x => (acc + 512 - inp.getD x 0 % 256 - 1) % 256) 0

/-- The field assignments of ParseHeader from rom.go, in source order:
every field of the struct is written from the input slice alone. -/
def populateHeader (inp : List Nat) : CartridgeHeader :=
  { Title := trimRightNul ((inp.drop 0x34).take (0x3F - 0x34))
    ManufacturerCode := trimRightNul ((inp.drop 0x3F).take (0x42 - 0x3F))
    CGBSupport :=
      if inp.getD 0x43 0 == 0x80 then .CgbSupported
      else if inp.getD 0x43 0 == 0xC0 then .CgbRequired
      else .CgbNotSupported
    NewLicenseeCode := (inp.drop 0x44).take (0x45 - 0x44)
    SGBSupport := inp.getD 0x46 0 == 0x03
    CartType := inp.getD 0x47 0
    ROMSize := getROMSize (inp.getD 0x48 0)
    RAMSize := getRAMSize (inp.getD 0x49 0)
    Japanese := inp.getD 0x4A 0 == 0x00
    OldLicenseeCode := inp.getD 0x4B 0
    VersionNumber := inp.getD 0x4C 0
    GlobalChecksum := inp.getD 0x4E 0 <<< 8 ||| inp.getD 0x4F 0 }

/-- ParseHeader from rom.go: takes the header struct being filled (the Go
code writes through a pointer) and returns the final struct together with
the error, if any.  A wrong length returns at once leaving the struct
untouched; the fields are then assigned, the checksum loop runs, and a
checksum mismatch is reported only after the struct is fully populated. -/
def ParseHeader (inp : List Nat) (header : CartridgeHeader) : CartridgeHeader × Option RomErr :=
  if inp.length ≠ 0x50 then (header, some .headerLengthInvalid)
  else if inp.getD 0x4D 0 ≠ headerChecksumCalc inp then
    (populateHeader inp, some .headerChecksumInvalid)
  else (populateHeader inp, none)

/-! Helper lemmas about the bitwise operations behind the flag register. -/

lemma and255 (x : Nat) : x &&& 255 = x % 256 := by
  have h := Nat.and_pow_two_sub_one_eq_mod x 8
  norm_num at h
  exact h

lemma and15 (x : Nat) : x &&& 15 = x % 16 := by
  have h := Nat.and_pow_two_sub_one_eq_mod x 4
  norm_num at h
  exact h

lemma and4095 (x : Nat) : x &&& 4095 = x % 4096 := by
  have h := Nat.and_pow_two_sub_one_eq_mod x 12
  norm_num at h
  exact h

lemma and65535 (x : Nat) : x &&& 65535 = x % 65536 := by
  have h := Nat.and_pow_two_sub_one_eq_mod x 16
  norm_num at h
  exact h

lemma lor_ne_zero_right (x c : Nat) (hc : c ≠ 0) : x ||| c ≠ 0 := by
  intro h
  rcases Nat.ne_zero_implies_bit_true hc with ⟨i, hi⟩
  have hbit : (x ||| c).testBit i = true := by
    rw [Nat.testBit_or, hi, Bool.or_true]
  rw [h, Nat.zero_testBit] at hbit
  exact Bool.false_ne_true hbit

lemma and_Set (f c d : Nat) (h : c &&& d = 0) :
    Z80Flags.Set f c &&& d = f &&& d := by
  unfold Z80Flags.Set
  rw [Nat.and_distrib_right, h, Nat.or_zero]

lemma and_Clear (f c d : Nat) (h : (255 ^^^ c) &&& d = d) :
    Z80Flags.Clear f c &&& d = f &&& d := by
  unfold Z80Flags.Clear
  rw [Nat.and_assoc, h]

lemma and_Clear_zero (f c d : Nat) (h : (255 ^^^ c) &&& d = 0) :
    Z80Flags.Clear f c &&& d = 0 := by
  unfold Z80Flags.Clear
  rw [Nat.and_assoc, h, Nat.and_zero]

lemma and_SetIf (f c d : Nat) (b : Bool) (h1 : c &&& d = 0) (h2 : (255 ^^^ c) &&& d = d) :
    Z80Flags.SetIf f b c &&& d = f &&& d := by
  cases b
  · simpa [Z80Flags.SetIf] using and_Clear f c d h2
  · simpa [Z80Flags.SetIf] using and_Set f c d h1

lemma IsSet_SetIf_other (f c d : Nat) (b : Bool) (h1 : c &&& d = 0) (h2 : (255 ^^^ c) &&& d = d) :
    Z80Flags.IsSet (Z80Flags.SetIf f b c) d = Z80Flags.IsSet f d := by
  unfold Z80Flags.IsSet
  rw [and_SetIf f c d b h1 h2]

lemma IsSet_Clear_other (f c d : Nat) (h : (255 ^^^ c) &&& d = d) :
    Z80Flags.IsSet (Z80Flags.Clear f c) d = Z80Flags.IsSet f d := by
  unfold Z80Flags.IsSet
  rw [and_Clear f c d h]

lemma IsSet_Clear_self (f c d : Nat) (h : (255 ^^^ c) &&& d = 0) :
    Z80Flags.IsSet (Z80Flags.Clear f c) d = false := by
  unfold Z80Flags.IsSet
  rw [and_Clear_zero f c d h]
  rfl

lemma IsSet_SetIf_self (f c : Nat) (b : Bool) (hc : c ≠ 0) (h : (255 ^^^ c) &&& c = 0) :
    Z80Flags.IsSet (Z80Flags.SetIf f b c) c = b := by
  cases b
  · simp only [Z80Flags.SetIf, Bool.false_eq_true, if_false]
    exact IsSet_Clear_self f c c h
  · simp only [Z80Flags.SetIf, if_true]
    unfold Z80Flags.IsSet Z80Flags.Set
    rw [Nat.and_distrib_right, Nat.and_self]
    simpa using lor_ne_zero_right (f &&& c) c hc

lemma testBit_255 (k : Nat) : Nat.testBit 255 k = decide (k < 8) := by
  have h : (255 : Nat) = 2 ^ 8 - 1 := by norm_num
  rw [h, Nat.testBit_two_pow_sub_one]

lemma testBit_FF00 (k : Nat) : Nat.testBit 65280 k = (decide (8 ≤ k) && decide (k < 16)) := by
  have h : (65280 : Nat) = (2 ^ 8 - 1) <<< 8 := by
    rw [Nat.shiftLeft_eq]
    norm_num
  rw [h, Nat.testBit_shiftLeft, Nat.testBit_two_pow_sub_one]
  by_cases hk : 8 ≤ k
  · have h1 : decide (k ≥ 8) = true := by simpa using hk
    rw [h1, Bool.true_and, Bool.true_and, decide_eq_decide]
    omega
  · have h1 : decide (k ≥ 8) = false := by simpa using hk
    rw [h1, Bool.false_and, Bool.false_and]

/-- Splitting a value below 65536 into the two bytes stored by SetWord and
reassembling them as GetWord does gives the value back. -/
lemma hi_lo_recombine (v : Nat) (hv : v < 65536) :
    ((v &&& 0xFF00) >>> 8) <<< 8 ||| (v &&& 0xFF) = v := by
  apply Nat.eq_of_testBit_eq
  intro k
  rw [Nat.testBit_or, Nat.testBit_shiftLeft, Nat.testBit_shiftRight,
    Nat.testBit_and, Nat.testBit_and, testBit_FF00, testBit_255]
  by_cases hk : 8 ≤ k
  · have he : 8 + (k - 8) = k := by omega
    have h1 : decide (k ≥ 8) = true := by simpa using hk
    have h3 : decide (k < 8) = false := by simp; omega
    rw [he, h1, h3]
    by_cases hk16 : k < 16
    · have h4 : decide (k < 16) = true := by simpa using hk16
      rw [h4]
      simp
    · have h4 : decide (k < 16) = false := by simpa using hk16
      have hvk : v.testBit k = false := by
        apply Nat.testBit_lt_two_pow
        calc v < 65536 := hv
          _ = 2 ^ 16 := by norm_num
          _ ≤ 2 ^ k := Nat.pow_le_pow_right (by norm_num) (by omega)
      rw [h4, hvk]
      simp
  · have h1 : decide (k ≥ 8) = false := by simpa using hk
    have h3 : decide (k < 8) = true := by simp; omega
    rw [h1, h3]
    simp

/-! Characterizations of the memory operations at nonnegative addresses. -/

lemma GetWord_oor (r : RAM) (a : Nat) (h : r.length ≤ a + 1) :
    RAM.GetWord r (a : Int) = .err .addressOutOfRange 0 := by
  unfold RAM.GetWord
  rw [if_pos]
  omega

lemma GetWord_ok (r : RAM) (a : Nat) (h : a + 1 < r.length) :
    RAM.GetWord r (a : Int) = .ok (r.getD a 0 <<< 8 ||| r.getD (a + 1) 0) := by
  unfold RAM.GetWord
  rw [if_neg (by omega), if_neg (by omega)]
  simp

lemma SetWord_oor (r : RAM) (a v : Nat) (h : r.length ≤ a + 1) :
    RAM.SetWord r (a : Int) v = .err .addressOutOfRange r := by
  unfold RAM.SetWord
  rw [if_pos]
  omega

lemma SetWord_ok (r : RAM) (a v : Nat) (h : a + 1 < r.length) :
    RAM.SetWord r (a : Int) v =
      .ok ((r.set a ((v &&& 0xFF00) >>> 8)).set (a + 1) (v &&& 0x00FF)) := by
  unfold RAM.SetWord
  rw [if_neg (by omega), if_neg (by omega)]
  simp

/-! Characterizations of push. -/

lemma push_overflow (val sp : Nat) (mem : RAM) (h : sp ≤ 2) :
    push val sp mem = .err .stackOverflow (sp, mem) := by
  unfold push
  rw [if_pos h]

lemma push_oor (val sp : Nat) (mem : RAM) (h2 : ¬ sp ≤ 2) (hlen : mem.length ≤ (sp - 2) + 1) :
    push val sp mem = .err .addressOutOfRange (sp - 2, mem) := by
  unfold push
  rw [if_neg h2, SetWord_oor mem (sp - 2) val hlen]

lemma push_ok_char (val sp : Nat) (mem : RAM) (h2 : ¬ sp ≤ 2) (hlen : (sp - 2) + 1 < mem.length) :
    push val sp mem =
      .ok (sp - 2, (mem.set (sp - 2) ((val &&& 0xFF00) >>> 8)).set ((sp - 2) + 1) (val &&& 0x00FF)) := by
  unfold push
  rw [if_neg h2, SetWord_ok mem (sp - 2) val hlen]

/-- After a successful push of a 16-bit value, a pop at the new stack
pointer returns the pushed value and the original stack pointer, with the
memory left as the push wrote it. -/
lemma push_ok_pop (val sp : Nat) (mem : RAM) (hv : val < 65536) (hsp : sp < 65536)
    (sp' : Nat) (mem' : RAM) (h : push val sp mem = .ok (sp', mem')) :
    pop sp' mem' = .ok (val, sp, mem') := by
  by_cases h2 : sp ≤ 2
  · rw [push_overflow val sp mem h2] at h
    exact absurd h (by simp)
  by_cases hlen : mem.length ≤ (sp - 2) + 1
  · rw [push_oor val sp mem h2 hlen] at h
    exact absurd h (by simp)
  rw [push_ok_char val sp mem h2 (by omega)] at h
  simp only [PResult.ok.injEq, Prod.mk.injEq] at h
  obtain ⟨h1, hM⟩ := h
  subst h1
  subst hM
  have hb1 : sp - 2 < mem.length := by omega
  have hb2 : (sp - 2) + 1 < (mem.set (sp - 2) ((val &&& 0xFF00) >>> 8)).length := by
    simp
    omega
  have hval :
      ((mem.set (sp - 2) ((val &&& 0xFF00) >>> 8)).set ((sp - 2) + 1) (val &&& 0x00FF)).getD (sp - 2) 0 <<< 8 |||
        ((mem.set (sp - 2) ((val &&& 0xFF00) >>> 8)).set ((sp - 2) + 1) (val &&& 0x00FF)).getD ((sp - 2) + 1) 0 = val := by
    rw [List.getD_eq_getElem?_getD, List.getD_eq_getElem?_getD,
      List.getElem?_set_self hb2,
      List.getElem?_set_ne (by omega : (sp - 2) + 1 ≠ sp - 2),
      List.getElem?_set_self hb1]
    simpa using hi_lo_recombine val hv
  unfold pop
  have hg : RAM.GetWord
      ((mem.set (sp - 2) ((val &&& 0xFF00) >>> 8)).set ((sp - 2) + 1) (val &&& 0x00FF))
      ((sp - 2 : Nat) : Int) = .ok val := by
    rw [GetWord_ok _ (sp - 2) (by simp; omega), hval]
  rw [hg]
  have hsp2 : (sp - 2) + 2 = sp := by omega
  simp [hsp2, Nat.mod_eq_of_lt hsp]

/-- C1 (counterexample): the claim that every failure of push leaves SP
unchanged is false.  With SP = 4 and an empty memory the push fails (the
word write is out of range), yet SP has been decremented to 2. -/
theorem C1_push_failure_counterexample :
    push 0xBEEF 4 [] = .err .addressOutOfRange (2, []) ∧ (2 : Nat) ≠ 4 := by
  constructor
  · decide
  · decide

/-- C1 (amended): push fails with StackOverflow if and only if SP is at most
2 at call time, and a StackOverflow failure leaves SP unchanged; a failure
propagated from the underlying word write is AddressOutOfRange and leaves SP
decremented by 2. -/
theorem C1_push_failure_amended (val sp : Nat) (mem : RAM) :
    ((∃ s, push val sp mem = .err .stackOverflow s) ↔ sp ≤ 2) ∧
    (sp ≤ 2 → push val sp mem = .err .stackOverflow (sp, mem)) ∧
    (∀ s, push val sp mem = .err .addressOutOfRange s → s = (sp - 2, mem)) := by
  by_cases h2 : sp ≤ 2
  · rw [push_overflow val sp mem h2]
    refine ⟨⟨fun _ => h2, fun _ => ⟨(sp, mem), rfl⟩⟩, fun _ => rfl, ?_⟩
    intro s hs
    exact absurd hs (by simp)
  · by_cases hlen : mem.length ≤ (sp - 2) + 1
    · rw [push_oor val sp mem h2 hlen]
      refine ⟨by simp [h2], fun hsp2 => absurd hsp2 h2, ?_⟩
      intro s hs
      simp only [PResult.err.injEq] at hs
      exact hs.2.symm
    · rw [push_ok_char val sp mem h2 (by omega)]
      refine ⟨by simp [h2], fun hsp2 => absurd hsp2 h2, ?_⟩
      intro s hs
      exact absurd hs (by simp)

/-- C1 (witness): at SP = 2 the push fails with StackOverflow and leaves SP
and memory untouched. -/
theorem C1_push_failure_witness : push 0xBEEF 2 [] = .err .stackOverflow (2, []) :=
  (C1_push_failure_amended 0xBEEF 2 []).2.1 (by decide)

/-- C2 (code bug): on a negative address every RAM operation panics at the
Go slice access (only the upper bound is checked before indexing), instead
of returning the AddressOutOfRange failure promised by the claim and by the
functions' own documentation comments. -/
theorem C2_negative_address_panics :
    RAM.GetByte [0, 0, 0, 0] (-1) = .panicked ∧
    RAM.SetByte [0, 0, 0, 0] (-1) 5 = .panicked ∧
    RAM.GetWord [0, 0, 0, 0] (-1) = .panicked ∧
    RAM.SetWord [0, 0, 0, 0] (-1) 0xBEEF = .panicked := by
  refine ⟨?_, ?_, ?_, ?_⟩ <;> decide

/-- C5: pop reads the word at SP; when that read is out of range (SP+1 at or
beyond the memory length) it fails with StackUnderflow, leaves SP unchanged
and returns the zero value; otherwise it advances SP by 2 (as a uint16) and
returns the word read, and the StackUnderflow failure happens exactly when
the read is out of range. -/
theorem C5_pop_spec (sp : Nat) (mem : RAM) :
    (mem.length ≤ sp + 1 → pop sp mem = .err .stackUnderflow (0, sp, mem)) ∧
    (sp + 1 < mem.length →
      pop sp mem = .ok (mem.getD sp 0 <<< 8 ||| mem.getD (sp + 1) 0, (sp + 2) % 65536, mem)) ∧
    ((∃ s, pop sp mem = .err .stackUnderflow s) ↔ mem.length ≤ sp + 1) := by
  by_cases h : mem.length ≤ sp + 1
  · have hp : pop sp mem = .err .stackUnderflow (0, sp, mem) := by
      unfold pop
      rw [GetWord_oor mem sp h]
    rw [hp]
    exact ⟨fun _ => rfl, fun hlt => absurd h (by omega), fun _ => h, fun _ => ⟨(0, sp, mem), rfl⟩⟩
  · have hp : pop sp mem =
        .ok (mem.getD sp 0 <<< 8 ||| mem.getD (sp + 1) 0, (sp + 2) % 65536, mem) := by
      unfold pop
      rw [GetWord_ok mem sp (by omega)]
    rw [hp]
    refine ⟨fun hle => absurd hle h, fun _ => rfl, ?_⟩
    simp [h]

/-- C5 (witness): with SP = 0x00FF on a 0xFF-byte memory the word read is
out of range, so pop fails with StackUnderflow, returns 0 and leaves SP
unchanged. -/
theorem C5_pop_witness :
    pop 0x00FF (List.replicate 0xFF 0) = .err .stackUnderflow (0, 0x00FF, List.replicate 0xFF 0) :=
  (C5_pop_spec 0x00FF (List.replicate 0xFF 0)).1 (by rw [List.length_replicate]; omega)

/-- C7: for every 16-bit value and every starting SP for which the push
succeeds, pushing the value and then popping returns the value and restores
SP to its original value. -/
theorem C7_push_pop_roundtrip (val sp : Nat) (mem : RAM) (hv : val < 65536) (hsp : sp < 65536) :
    ∀ sp' mem', push val sp mem = .ok (sp', mem') → pop sp' mem' = .ok (val, sp, mem') :=
  fun sp' mem' h => push_ok_pop val sp mem hv hsp sp' mem' h

/-- C7 (witness): pushing 0xBEEF at SP = 5 on a 6-byte memory succeeds, and
the subsequent pop returns 0xBEEF and restores SP = 5. -/
theorem C7_push_pop_witness :
    pop 3 [0, 0, 0, 190, 239, 0] = .ok (0xBEEF, 5, [0, 0, 0, 190, 239, 0]) :=
  C7_push_pop_roundtrip 0xBEEF 5 [0, 0, 0, 0, 0, 0] (by decide) (by decide)
    3 [0, 0, 0, 190, 239, 0] (by decide)

/-- Full characterization of add8 in terms of the adjusted right operand. -/
lemma add8_spec_aux (left right f right' : Nat) (withCarry : Bool)
    (hl : left < 256) (hr : right < 256)
    (hR : right' = if withCarry && Z80Flags.IsSet f FlagCarry then (right + 1) % 256 else right) :
    (add8 left right f withCarry).1 = (left + right') % 256 ∧
    (Z80Flags.IsSet (add8 left right f withCarry).2 FlagCarry = true ↔ 255 < left + right') ∧
    Z80Flags.IsSet (add8 left right f withCarry).2 FlagAddSub = false ∧
    (Z80Flags.IsSet (add8 left right f withCarry).2 FlagZero = true ↔ (left + right') % 256 = 0) ∧
    (Z80Flags.IsSet (add8 left right f withCarry).2 FlagHalfCarry = true ↔
      15 < left % 16 + right' % 16) := by
  subst hR
  simp only [add8]
  refine ⟨?_, ?_, ?_, ?_, ?_⟩
  · rw [and255, and255]
    omega
  · rw [IsSet_SetIf_other _ _ _ _ (by decide) (by decide),
      IsSet_SetIf_other _ _ _ _ (by decide) (by decide),
      IsSet_Clear_other _ _ _ (by decide),
      IsSet_SetIf_self _ _ _ (by decide) (by decide)]
    simp
  · rw [IsSet_SetIf_other _ _ _ _ (by decide) (by decide),
      IsSet_SetIf_other _ _ _ _ (by decide) (by decide),
      IsSet_Clear_self _ _ _ (by decide)]
  · rw [IsSet_SetIf_other _ _ _ _ (by decide) (by decide),
      IsSet_SetIf_self _ _ _ (by decide) (by decide)]
    rw [and255]
    simp
  · rw [IsSet_SetIf_self _ _ _ (by decide) (by decide)]
    rw [and15, and15]
    simp only [decide_eq_true_eq]
    omega

/-- C3: add8 first increments right by 1 (as a uint8) when with-carry is
requested and Carry is set; the sum is computed exactly in Nat; Carry ends
set iff the sum exceeds 255; the stored result is the sum reduced modulo
256; Add/Subtract ends cleared; Zero ends set iff the reduced result is
zero; and Half-Carry ends set iff the low nibbles of the stored left operand
and of the (adjusted) right operand sum to more than 15. -/
theorem C3_add8_spec (left right f right' : Nat) (withCarry : Bool)
    (hl : left < 256) (hr : right < 256)
    (hR : right' = if withCarry && Z80Flags.IsSet f FlagCarry then (right + 1) % 256 else right) :
    (add8 left right f withCarry).1 = (left + right') % 256 ∧
    (Z80Flags.IsSet (add8 left right f withCarry).2 FlagCarry = true ↔ 255 < left + right') ∧
    Z80Flags.IsSet (add8 left right f withCarry).2 FlagAddSub = false ∧
    (Z80Flags.IsSet (add8 left right f withCarry).2 FlagZero = true ↔ (left + right') % 256 = 0) ∧
    (Z80Flags.IsSet (add8 left right f withCarry).2 FlagHalfCarry = true ↔
      15 < left % 16 + right' % 16) :=
  add8_spec_aux left right f right' withCarry hl hr hR

/-- C3 (witness): adding 1 to 0xFF without carry-in gives 0 with Carry and
Zero set, Add/Subtract clear and no half-carry condition beyond the nibble
rule. -/
theorem C3_add8_witness :
    (add8 0xFF 1 0 false).1 = (0xFF + 1) % 256 ∧
    (Z80Flags.IsSet (add8 0xFF 1 0 false).2 FlagCarry = true ↔ 255 < 0xFF + 1) ∧
    Z80Flags.IsSet (add8 0xFF 1 0 false).2 FlagAddSub = false ∧
    (Z80Flags.IsSet (add8 0xFF 1 0 false).2 FlagZero = true ↔ (0xFF + 1) % 256 = 0) ∧
    (Z80Flags.IsSet (add8 0xFF 1 0 false).2 FlagHalfCarry = true ↔ 15 < 0xFF % 16 + 1 % 16) :=
  C3_add8_spec 0xFF 1 0 1 false (by decide) (by decide) (by decide)

/-- C4: add16 stores the sum reduced modulo 65536, sets Carry iff the exact
sum exceeds 65535, sets Half-Carry iff the low 12 bits of the operands sum
to more than 0xFFF, clears Add/Subtract, and leaves the Zero flag bit of the
flags value unchanged. -/
theorem C4_add16_spec (left right f : Nat) :
    (add16 left right f).1 = (left + right) % 65536 ∧
    (Z80Flags.IsSet (add16 left right f).2 FlagCarry = true ↔ 65535 < left + right) ∧
    (Z80Flags.IsSet (add16 left right f).2 FlagHalfCarry = true ↔
      4095 < left % 4096 + right % 4096) ∧
    Z80Flags.IsSet (add16 left right f).2 FlagAddSub = false ∧
    (add16 left right f).2 &&& FlagZero = f &&& FlagZero := by
  simp only [add16]
  refine ⟨?_, ?_, ?_, ?_, ?_⟩
  · rw [and65535, and65535]
    omega
  · rw [IsSet_SetIf_other _ _ _ _ (by decide) (by decide),
      IsSet_Clear_other _ _ _ (by decide),
      IsSet_SetIf_self _ _ _ (by decide) (by decide)]
    simp
  · rw [IsSet_SetIf_self _ _ _ (by decide) (by decide), and4095, and4095]
    simp only [decide_eq_true_eq]
    omega
  · rw [IsSet_SetIf_other _ _ _ _ (by decide) (by decide),
      IsSet_Clear_self _ _ _ (by decide)]
  · rw [and_SetIf _ _ _ _ (by decide) (by decide),
      and_Clear _ _ _ (by decide),
      and_SetIf _ _ _ _ (by decide) (by decide)]

/-- C6: call pushes the current PC; a push failure is returned verbatim with
PC unmodified, and on success PC becomes the given address while the old PC
is retrievable by a subsequent pop. -/
theorem C6_call_spec (addr pc sp : Nat) (mem : RAM) (hpc : pc < 65536) (hsp : sp < 65536) :
    (∀ e sp2 mem2, push pc sp mem = .err e (sp2, mem2) →
      call addr pc sp mem = .err e (pc, sp2, mem2)) ∧
    (∀ sp2 mem2, push pc sp mem = .ok (sp2, mem2) →
      call addr pc sp mem = .ok (addr, sp2, mem2) ∧ pop sp2 mem2 = .ok (pc, sp, mem2)) := by
  constructor
  · intro e sp2 mem2 h
    unfold call
    rw [h]
  · intro sp2 mem2 h
    refine ⟨?_, push_ok_pop pc sp mem hpc hsp sp2 mem2 h⟩
    unfold call
    rw [h]

/-- C6 (witness): calling 0xBEEF with PC = 0xFEED and SP = 5 on a 6-byte
memory sets PC to 0xBEEF, and the old PC 0xFEED is returned by the
subsequent pop. -/
theorem C6_call_witness :
    call 0xBEEF 0xFEED 5 [0, 0, 0, 0, 0, 0] = .ok (0xBEEF, 3, [0, 0, 0, 254, 237, 0]) ∧
    pop 3 [0, 0, 0, 254, 237, 0] = .ok (0xFEED, 5, [0, 0, 0, 254, 237, 0]) :=
  (C6_call_spec 0xBEEF 0xFEED 5 [0, 0, 0, 0, 0, 0] (by decide) (by decide)).2
    3 [0, 0, 0, 254, 237, 0] (by decide)

/-- C8: the four named flags sit in the high nibble (0x10, 0x20, 0x40,
0x80), and each flag-touching primitive maps a flags value with clear low
nibble to a flags value with clear low nibble.  The push, pop and call
primitives do not take the flags register at all, so they preserve it
trivially. -/
theorem C8_flags_low_nibble (left right b v f : Nat) (withCarry : Bool) (hf : f &&& 0x0F = 0) :
    FlagCarry = 0x10 ∧ FlagHalfCarry = 0x20 ∧ FlagAddSub = 0x40 ∧ FlagZero = 0x80 ∧
    (add8 left right f withCarry).2 &&& 0x0F = 0 ∧
    (add16 left right f).2 &&& 0x0F = 0 ∧
    (gogb.and left right f).2 &&& 0x0F = 0 ∧
    bit b v f &&& 0x0F = 0 := by
  refine ⟨by decide, by decide, by decide, by decide, ?_, ?_, ?_, ?_⟩
  · simp only [add8]
    rw [and_SetIf _ _ _ _ (by decide) (by decide),
      and_SetIf _ _ _ _ (by decide) (by decide),
      and_Clear _ _ _ (by decide),
      and_SetIf _ _ _ _ (by decide) (by decide)]
    exact hf
  · simp only [add16]
    rw [and_SetIf _ _ _ _ (by decide) (by decide),
      and_Clear _ _ _ (by decide),
      and_SetIf _ _ _ _ (by decide) (by decide)]
    exact hf
  · simp only [gogb.and]
    rw [and_Clear _ _ _ (by decide),
      and_Set _ _ _ (by decide),
      and_Clear _ _ _ (by decide),
      and_SetIf _ _ _ _ (by decide) (by decide)]
    exact hf
  · simp only [bit]
    rw [and_SetIf _ _ _ _ (by decide) (by decide)]
    exact hf

/-- C8 (witness): with flags = FlagZero (low nibble clear) each primitive
leaves the low nibble clear. -/
theorem C8_flags_low_nibble_witness :
    FlagCarry = 0x10 ∧ FlagHalfCarry = 0x20 ∧ FlagAddSub = 0x40 ∧ FlagZero = 0x80 ∧
    (add8 0 0 FlagZero false).2 &&& 0x0F = 0 ∧
    (add16 0 0 FlagZero).2 &&& 0x0F = 0 ∧
    (gogb.and 0 0 FlagZero).2 &&& 0x0F = 0 ∧
    bit 0 0 FlagZero &&& 0x0F = 0 :=
  C8_flags_low_nibble 0 0 0 0 FlagZero false (by decide)

/-- A concrete header struct used as the pre-existing output structure in
witnesses. -/
def emptyHeader : CartridgeHeader :=
  ⟨[], [], .CgbNotSupported, [], false, 0, 0, 0, false, 0, 0, 0⟩

/-- C9: the header parser returns the length-invalid failure, leaving the
output structure untouched, exactly when the input is not 0x50 bytes; on a
0x50-byte input it fully populates the structure (the result does not depend
on the structure passed in), and it reports the checksum-invalid failure
exactly when the running subtraction over bytes 0x34 through 0x4C differs
from the byte at 0x4D, succeeding otherwise. -/
theorem C9_ParseHeader_spec (inp : List Nat) (h1 h2 : CartridgeHeader) :
    (inp.length ≠ 0x50 → ParseHeader inp h1 = (h1, some .headerLengthInvalid)) ∧
    ((ParseHeader inp h1).2 = some .headerLengthInvalid ↔ inp.length ≠ 0x50) ∧
    (inp.length = 0x50 →
      (ParseHeader inp h1).1 = populateHeader inp ∧
      (ParseHeader inp h1).1 = (ParseHeader inp h2).1 ∧
      ((ParseHeader inp h1).2 = some .headerChecksumInvalid ↔
        inp.getD 0x4D 0 ≠ headerChecksumCalc inp) ∧
      ((ParseHeader inp h1).2 = none ↔ inp.getD 0x4D 0 = headerChecksumCalc inp)) := by
  by_cases hlen : inp.length = 0x50
  · have hne : ¬ inp.length ≠ 0x50 := by simpa using hlen
    by_cases hchk : inp.getD 0x4D 0 ≠ headerChecksumCalc inp
    · have hp : ∀ hh : CartridgeHeader,
          ParseHeader inp hh = (populateHeader inp, some .headerChecksumInvalid) := by
        intro hh
        unfold ParseHeader
        rw [if_neg hne, if_pos hchk]
      rw [hp h1, hp h2]
      exact ⟨fun hx => absurd hlen hx, by simp [hlen],
        fun _ => ⟨rfl, rfl, ⟨fun _ => hchk, fun _ => rfl⟩,
          ⟨fun hx => Option.noConfusion hx, fun hx => absurd hx hchk⟩⟩⟩
    · have hp : ∀ hh : CartridgeHeader, ParseHeader inp hh = (populateHeader inp, none) := by
        intro hh
        unfold ParseHeader
        rw [if_neg hne, if_neg hchk]
      have heq := not_not.mp hchk
      rw [hp h1, hp h2]
      exact ⟨fun hx => absurd hlen hx, by simp [hlen],
        fun _ => ⟨rfl, rfl, ⟨fun hx => Option.noConfusion hx, fun hx => absurd heq hx⟩,
          ⟨fun _ => heq, fun _ => rfl⟩⟩⟩
  · have hx : inp.length ≠ 0x50 := hlen
    have hp : ParseHeader inp h1 = (h1, some .headerLengthInvalid) := by
      unfold ParseHeader
      rw [if_pos hx]
    rw [hp]
    exact ⟨fun _ => rfl, by simp [hx], fun hcon => absurd hcon hlen⟩

/-- C9 (witness): an all-zero 0x50-byte header populates the structure and
reports an invalid checksum (the running subtraction over 25 zero bytes
gives 231, which differs from the 0 stored at offset 0x4D). -/
theorem C9_ParseHeader_witness :
    (ParseHeader (List.replicate 0x50 0) emptyHeader).1 = populateHeader (List.replicate 0x50 0) ∧
    (ParseHeader (List.replicate 0x50 0) emptyHeader).2 = some RomErr.headerChecksumInvalid := by
  have h := (C9_ParseHeader_spec (List.replicate 0x50 0) emptyHeader emptyHeader).2.2
    (by rw [List.length_replicate])
  exact ⟨h.1, h.2.2.1.mpr (by decide)⟩

/-- C10: with carry-in requested, Carry set and right = 0xFF, the carry-in
increment wraps right to 0 modulo 256, so add8 leaves left unchanged and
clears the Carry flag. -/
theorem C10_adc_wraparound (left f : Nat) (hl : left < 256)
    (hc : Z80Flags.IsSet f FlagCarry = true) :
    (add8 left 0xFF f true).1 = left ∧
    Z80Flags.IsSet (add8 left 0xFF f true).2 FlagCarry = false := by
  have h := add8_spec_aux left 0xFF f 0 true hl (by decide) (by rw [hc]; decide)
  refine ⟨?_, ?_⟩
  · have h1 := h.1
    rw [Nat.add_zero, Nat.mod_eq_of_lt hl] at h1
    exact h1
  · have h2 := h.2.1
    have hnp : ¬ 255 < left + 0 := by omega
    have h3 : ¬ Z80Flags.IsSet (add8 left 0xFF f true).2 FlagCarry = true :=
      fun ht => hnp (h2.mp ht)
    simpa using h3

/-- C10 (witness): with left = 0x42 and Carry set, adding 0xFF with carry
leaves left at 0x42 and clears Carry. -/
theorem C10_adc_wraparound_witness :
    (add8 0x42 0xFF FlagCarry true).1 = 0x42 ∧
    Z80Flags.IsSet (add8 0x42 0xFF FlagCarry true).2 FlagCarry = false :=
  C10_adc_wraparound 0x42 FlagCarry (by decide) (by decide)

end gogb
